import Mathlib

/-!
Shallow embedding of the HFGCSpy scanning orchestrator
(`hfgcs.py`, `core/sdr_manager.py`, `core/data_store.py`).

Python threads become explicit state records; each loop body becomes a
pure step function on that state; exceptions raised by collaborators
(hardware open/capture, config parsing) become explicit outcome
parameters of the step functions, exactly where the source wraps a call
in `try`/`except`.
-/

namespace HFGCSpy

/-! ## SDRManager (`core/sdr_manager.py`)

`SDRState` carries the two fields the source tracks (`self.sdr`,
`self._is_open`) plus two instrumentation counters that count how many
times the underlying device's `open`/`close` have actually been invoked
(`self.sdr = RtlSdr(...)` succeeding, resp. `self.sdr.close()` running).
The counters let us state "released exactly once" claims. -/

structure SDRState where
  /-- `self.sdr is not None` -/
  sdrSome : Bool
  /-- `self._is_open` -/
  isOpen : Bool
  /-- number of times `self.sdr.close()` has actually run -/
  closeCount : Nat
  /-- number of times `RtlSdr(...)` has been successfully constructed -/
  openCount : Nat
deriving DecidableEq, Repr

/-- The initial manager state set by `SDRManager.__init__`:
`self.sdr = None`, `self._is_open = False`. -/
def SDRState.init : SDRState :=
  { sdrSome := false, isOpen := false, closeCount := 0, openCount := 0 }

/-- `SDRManager.open_sdr` (sdr_manager.py:85-112). `outcome` is whether the
`RtlSdr(...)` construction and parameter assignment succeed (the body of the
`try`). If already open, return immediately; on success set `self.sdr` and
`self._is_open = True`; on an exception set `self.sdr = None`,
`self._is_open = False`. -/
def open_sdr (outcome : Bool) (s : SDRState) : SDRState :=
  if s.isOpen then s
  else if outcome then
    { s with sdrSome := true, isOpen := true, openCount := s.openCount + 1 }
  else
    { s with sdrSome := false, isOpen := false }

/-- `SDRManager.close_sdr` (sdr_manager.py:114-119): invoke
`self.sdr.close()` only when `self.sdr and self._is_open`; in all cases set
`self.sdr = None` and `self._is_open = False`. -/
def close_sdr (s : SDRState) : SDRState :=
  if s.sdrSome ∧ s.isOpen then
    { s with sdrSome := false, isOpen := false, closeCount := s.closeCount + 1 }
  else
    { s with sdrSome := false, isOpen := false }

/-- Outcome of the `self.sdr.read_samples(num_samples)` call inside
`capture_samples`: either a block of samples or a raised exception. -/
inductive CaptureOutcome where
  | ok (samples : List Int)
  | fault
deriving DecidableEq, Repr

/-- `SDRManager.capture_samples` (sdr_manager.py:121-134). If the manager is
not initialized or not open, return an empty block. Otherwise, on a
successful read return the samples; on any exception, close the SDR, try to
re-open it (`reopenOutcome` is whether that re-open succeeds), and return an
empty block. -/
def capture_samples (co : CaptureOutcome) (reopenOutcome : Bool)
    (s : SDRState) : SDRState × List Int :=
  if s.sdrSome ∧ s.isOpen then
    match co with
    | .ok samples => (s, samples)
    | .fault => (open_sdr reopenOutcome (close_sdr s), [])
  else
    (s, [])

/-! ## DataStore (`core/data_store.py`) -/

/-- The whitelist guarding `get_recent_messages` / `delete_message`
(data_store.py:164). -/
def valid_message_tables : List String :=
  ["hfgcs_messages", "js8_messages", "adsb_messages"]

/-- A row returned from the database, with the mutable `table_name` tag the
export path stamps on each message (hfgcs.py:123). Payload content is
abstracted to a `Nat`. -/
structure DbRow where
  payload : Nat
  tableTag : String
deriving DecidableEq, Repr

/-- `DataStore.get_recent_messages` (data_store.py:163-191): an unrecognized
`table_name` short-circuits to `[]` before any database access; otherwise
the rows of that table are returned newest-first, limited to `limit`.
`db` maps a table name to its rows already in `ORDER BY timestamp DESC`
order. -/
def get_recent_messages (db : String → List DbRow) (tableName : String)
    (limit : Nat) : List DbRow :=
  if tableName ∈ valid_message_tables then (db tableName).take limit
  else []

/-! ## Export helpers (`hfgcs.py`) -/

/-- `export_recent_messages_to_json` (hfgcs.py:111-127): fetch recent
messages for `tableName` and stamp each with `msg['table_name'] =
table_name`; the resulting list is what is serialized into
`messages.json`. -/
def export_recent_messages_to_json (db : String → List DbRow)
    (tableName : String) (limit : Nat) : List DbRow :=
  (get_recent_messages db tableName limit).map
    (fun m => { m with tableTag := tableName })

/-- The table name the main loop passes to the messages export every tick
(hfgcs.py:419). -/
def main_loop_messages_table : String := "hfcgs_messages"

/-! ## Worker threads (`sdr_scan_and_decode_thread`, hfgcs.py:170-297)

A `Worker` is the supervisor-visible footprint of one entry of
`sdr_threads`: whether its `threading.Thread` is alive, whether its
`threading.Event` running flag is set, and whether its manager currently
holds the hardware open. -/

structure Worker where
  /-- `thread.is_alive()` -/
  alive : Bool
  /-- `running_flag.is_set()` -/
  flagSet : Bool
  /-- the worker's manager state -/
  manager : SDRState
deriving DecidableEq, Repr

/-- The worker the supervisor records right after `thread.start()`
(hfgcs.py:404-410): flag set, thread alive, manager freshly constructed. -/
def freshWorker : Worker :=
  { alive := true, flagSet := true, manager := SDRState.init }

/-- The startup phase of `sdr_scan_and_decode_thread` (hfgcs.py:176-181):
call `open_sdr`; if the manager holds no SDR afterwards, clear the running
flag and return — the thread terminates (the `finally` at hfgcs.py:295-296
then runs `close_sdr`). -/
def worker_startup (openOutcome : Bool) (w : Worker) : Worker :=
  let m := open_sdr openOutcome w.manager
  if m.sdrSome then { w with manager := m }
  else { alive := false, flagSet := false, manager := close_sdr m }

/-- A capture fault hitting a live worker mid-scan: the manager handles it
entirely inside `capture_samples` (close + re-open); the thread stays alive
and the supervisor's map is untouched. -/
def worker_capture_fault (reopenOutcome : Bool) (w : Worker) : Worker :=
  { w with manager := (capture_samples .fault reopenOutcome w.manager).1 }

/-- The stop sequence the supervisor applies to a worker it removes
(hfgcs.py:387-393): `running_flag.clear()`, `thread.join(timeout=10)`,
`manager.close_sdr()`. `joinOk` is whether the join succeeded before the
timeout (thread no longer alive). -/
def stop_worker (joinOk : Bool) (w : Worker) : Worker :=
  { alive := if joinOk then false else w.alive,
    flagSet := false,
    manager := close_sdr w.manager }

/-! ## Frequency rotation (`sdr_scan_and_decode_thread` body) -/

/-- `scan_frequencies["hfgcs"]` (hfgcs.py:184). -/
def scan_frequencies_hfgcs : List Nat :=
  [4724000, 6739000, 8992000, 11175000, 13200000, 15016000]

/-- `scan_frequencies["js8"]` (hfgcs.py:185). -/
def scan_frequencies_js8 : List Nat := [7078000, 14078000]

/-- `scan_frequencies["adsb"]` (hfgcs.py:186). -/
def scan_frequencies_adsb : List Nat := [1090000000]

/-- `active_frequencies` as assembled each scanning iteration
(hfgcs.py:199-205): start empty, extend with each category's list in the
fixed order hfgcs, js8, adsb, guarded by that category's enable flag. -/
def active_frequencies (hfgcs js8 adsb : Bool) : List Nat :=
  (if hfgcs then scan_frequencies_hfgcs else []) ++
  (if js8 then scan_frequencies_js8 else []) ++
  (if adsb then scan_frequencies_adsb else [])

/-- The frequency selected in a scanning iteration (hfgcs.py:213):
`active_frequencies[current_freq_idx % len(active_frequencies)]`. Only
reached when the active list is non-empty (hfgcs.py:207 guards that). -/
def target_freq (active : List Nat) (idx : Nat) : Nat :=
  active.getD (idx % active.length) 0

/-- One pass of hfgcs.py:213-215 over a non-empty active list: pick the
target, tune the hardware to it, and return the incremented cycle index
(`current_freq_idx += 1` — never reset while the worker lives). -/
def scan_iteration (active : List Nat) (idx : Nat) : Nat × Nat :=
  (target_freq active idx, idx + 1)

/-! ## Device selection and the supervisor loop (`main_app_loop`) -/

/-- Whitespace characters removed by Python's `str.strip()`. -/
def is_py_space (c : Char) : Bool :=
  c = ' ' || c = '\t' || c = '\n' || c = '\x0d' || c = '\x0c' || c = '\x0b'

/-- Python `str.strip()` on the character list of a string: drop leading and
trailing whitespace. -/
def py_strip_chars (cs : List Char) : List Char :=
  ((cs.dropWhile is_py_space).reverse.dropWhile is_py_space).reverse

/-- Python `str.strip()`. -/
def py_strip (s : String) : String := String.mk (py_strip_chars s.toList)

/-- Helper for Python `str.split(sep)`: accumulate the current piece
(reversed) while walking the characters. -/
def py_split_aux (sep : Char) : List Char → List Char → List (List Char)
  | [], acc => [acc.reverse]
  | c :: rest, acc =>
    if c = sep then acc.reverse :: py_split_aux sep rest []
    else py_split_aux sep rest (c :: acc)

/-- Python `str.split(sep)` for a one-character separator: every occurrence
of the separator starts a new piece; empty pieces are kept
(`''.split(',') == ['']`). -/
def py_split (sep : Char) (s : String) : List String :=
  (py_split_aux sep s.toList []).map String.mk

/-- Resolution of `selected_devices` (hfgcs.py:375-381): the literal
`'all'` selects every detected device; a non-empty string is split on
commas, each piece stripped, and kept only when it is among the detected
serials; the empty string falls back to all detected devices. -/
def resolve_selection (selStr : String) (available : List String) :
    List String :=
  if selStr = "all" then available
  else if selStr ≠ "" then
    ((py_split ',' selStr).map py_strip).filter (fun s => s ∈ available)
  else available

/-- The `sdr_threads` dictionary: serial → worker, in insertion order. -/
abbrev WorkerMap := List (String × Worker)

/-- The start loop (hfgcs.py:395-411): for each newly selected serial, if it
has no entry in `sdr_threads`, construct a manager, set the flag, start the
thread and record it. The dictionary is consulted as the loop runs, so a
duplicated serial in the selection cannot create a second entry. -/
def start_new_workers : List String → WorkerMap → WorkerMap
  | [], st => st
  | id :: rest, st =>
    if id ∈ st.map Prod.fst then start_new_workers rest st
    else start_new_workers rest (st ++ [(id, freshWorker)])

/-- The stop loop (hfgcs.py:383-393): every entry whose serial is no longer
selected or no longer detected is signalled, joined, closed and deleted
from the dictionary; every other entry survives untouched. (The stopped
workers themselves go through `stop_worker`; only the surviving map is
returned, matching `del sdr_threads[sdr_serial]`.) -/
def stop_removed_workers (selected available : List String)
    (st : WorkerMap) : WorkerMap :=
  st.filter (fun p => p.1 ∈ selected ∧ p.1 ∈ available)

/-- One supervisor reconciliation pass (hfgcs.py:371-411): resolve the
selection, stop deselected/undetected workers, then start workers for
selected serials with no entry. -/
def supervisor_tick (available : List String) (selStr : String)
    (st : WorkerMap) : WorkerMap :=
  let selected := resolve_selection selStr available
  start_new_workers selected (stop_removed_workers selected available st)

/-- The status dictionary built by `update_web_status_file`
(hfgcs.py:95-98): for every entry of `sdr_threads`, `"Active"` when
`thread.is_alive()` holds at the moment the snapshot is assembled, else
`"Inactive"` — read directly off the live thread objects. -/
def sdr_devices_status (st : WorkerMap) : List (String × String) :=
  st.map (fun p => (p.1, if p.2.alive then "Active" else "Inactive"))

/-! ## Main loop tick with config re-read (hfgcs.py:361-429) -/

/-- The configuration values the main loop reads each tick
(hfgcs.py:364-373). -/
structure ConfigFlags where
  hfgcs : Bool
  js8 : Bool
  adsb : Bool
  selected_devices : String
deriving DecidableEq, Repr

/-- State owned by the main loop: the current service flags and the
`sdr_threads` map. -/
structure SupState where
  flags : ConfigFlags
  workers : WorkerMap
deriving DecidableEq, Repr

/-- One iteration of the `while True` body of `main_app_loop`
(hfgcs.py:361-429). `readResult` is the outcome of `config.read` plus the
`config.get*` calls: `Except.error` is a raised `configparser.Error`, which
the `except configparser.Error` arm at hfgcs.py:424-425 catches after
skipping the rest of the body — the previous flags and the worker map are
left untouched and the loop proceeds to its sleep. On success the flags are
replaced and the supervisor reconciliation runs. -/
def main_app_loop_tick (readResult : Except String ConfigFlags)
    (available : List String) (st : SupState) : SupState :=
  match readResult with
  | .error _ => st
  | .ok cfg =>
    { flags := cfg,
      workers := supervisor_tick available cfg.selected_devices st.workers }

/-- The messages export performed by the main loop every tick
(hfgcs.py:417-419): `export_recent_messages_to_json(table_name='hfcgs_messages')`. -/
def main_app_loop_messages_export (db : String → List DbRow) (limit : Nat) :
    List DbRow :=
  export_recent_messages_to_json db main_loop_messages_table limit

/-! ## Reachable states of the orchestrator

An event is one atomic thing that can happen to the supervisor-visible
state: a main-loop tick (with the outcome of the config re-read and the
device list enumerated that tick), or a fault inside one worker (open
failure at startup, capture failure mid-scan). Worker faults mutate only
that worker in place; the Python dict `sdr_threads` is touched only by the
main loop. -/

/-- Apply a function to the worker stored under `id`, in place. -/
def update_worker (id : String) (f : Worker → Worker) (st : WorkerMap) :
    WorkerMap :=
  st.map (fun p => if p.1 = id then (p.1, f p.2) else p)

inductive SysEvent where
  | tick (readResult : Except String ConfigFlags) (available : List String)
  | openFault (id : String)
  | captureFault (id : String) (reopenOutcome : Bool)
deriving Repr

def apply_event : SysEvent → SupState → SupState
  | .tick r avail, st => main_app_loop_tick r avail st
  | .openFault id, st =>
    { st with workers := update_worker id (worker_startup false) st.workers }
  | .captureFault id b, st =>
    { st with workers := update_worker id (worker_capture_fault b) st.workers }

/-- Process start (hfgcs.py:76-86): no worker threads, every service flag
false, no devices selected. -/
def init_sup_state : SupState :=
  { flags := { hfgcs := false, js8 := false, adsb := false,
               selected_devices := "" },
    workers := [] }

/-- The state reached from process start by a given event trace. -/
def run_events (evs : List SysEvent) : SupState :=
  evs.foldl (fun st e => apply_event e st) init_sup_state

/-! ## Helper lemmas -/

theorem lookup_map_snd {β : Type} (f : Worker → β) (st : WorkerMap)
    (id : String) :
    List.lookup id (st.map (fun p => (p.1, f p.2))) =
      (List.lookup id st).map f := by
  induction st with
  | nil => rfl
  | cons p rest ih =>
    obtain ⟨k, w⟩ := p
    by_cases h : id = k
    · subst h
      simp [List.lookup]
    · have hb : (id == k) = false := by simp [h]
      simp [List.lookup, hb, ih]

theorem keys_update_worker (id : String) (f : Worker → Worker)
    (st : WorkerMap) :
    (update_worker id f st).map Prod.fst = st.map Prod.fst := by
  unfold update_worker
  rw [List.map_map]
  apply List.map_congr_left
  intro p _
  by_cases h : p.1 = id <;> simp [h]

theorem mem_keys_start_new_workers (ids : List String) (st : WorkerMap)
    (x : String) (hx : x ∈ (start_new_workers ids st).map Prod.fst) :
    x ∈ st.map Prod.fst ∨ x ∈ ids := by
  induction ids generalizing st with
  | nil => exact Or.inl hx
  | cons id rest ih =>
    rw [start_new_workers] at hx
    by_cases h : id ∈ st.map Prod.fst
    · rw [if_pos h] at hx
      rcases ih st hx with h1 | h1
      · exact Or.inl h1
      · exact Or.inr (List.mem_cons_of_mem _ h1)
    · rw [if_neg h] at hx
      rcases ih _ hx with h1 | h1
      · rw [List.map_append] at h1
        rcases List.mem_append.mp h1 with h2 | h2
        · exact Or.inl h2
        · simp only [List.map_cons, List.map_nil, List.mem_singleton] at h2
          exact Or.inr (h2 ▸ List.mem_cons_self _ _)
      · exact Or.inr (List.mem_cons_of_mem _ h1)

theorem nodup_keys_start_new_workers (ids : List String) (st : WorkerMap)
    (h : (st.map Prod.fst).Nodup) :
    ((start_new_workers ids st).map Prod.fst).Nodup := by
  induction ids generalizing st with
  | nil => exact h
  | cons id rest ih =>
    rw [start_new_workers]
    by_cases hc : id ∈ st.map Prod.fst
    · rw [if_pos hc]
      exact ih st h
    · rw [if_neg hc]
      apply ih
      rw [List.map_append]
      refine List.Nodup.append h (by simp) ?_
      intro a ha hb
      simp only [List.map_cons, List.map_nil, List.mem_singleton] at hb
      exact hc (hb ▸ ha)

theorem keys_stop_removed_sublist (selected available : List String)
    (st : WorkerMap) :
    ((stop_removed_workers selected available st).map Prod.fst).Sublist
      (st.map Prod.fst) :=
  (List.filter_sublist st).map Prod.fst

theorem mem_keys_stop_removed (selected available : List String)
    (st : WorkerMap) (x : String)
    (hx : x ∈ (stop_removed_workers selected available st).map Prod.fst) :
    x ∈ available := by
  unfold stop_removed_workers at hx
  rcases List.mem_map.mp hx with ⟨p, hp, hpx⟩
  have := List.mem_filter.mp hp
  subst hpx
  have h2 := of_decide_eq_true this.2
  exact h2.2

theorem resolve_selection_subset (sel : String) (available : List String)
    (x : String) (hx : x ∈ resolve_selection sel available) :
    x ∈ available := by
  unfold resolve_selection at hx
  split at hx
  · exact hx
  · split at hx
    · exact of_decide_eq_true (List.mem_filter.mp hx).2
    · exact hx

theorem nodup_keys_supervisor_tick (available : List String) (sel : String)
    (st : WorkerMap) (h : (st.map Prod.fst).Nodup) :
    ((supervisor_tick available sel st).map Prod.fst).Nodup := by
  unfold supervisor_tick
  exact nodup_keys_start_new_workers _ _
    ((keys_stop_removed_sublist _ _ st).nodup h)

theorem nodup_keys_apply_event (e : SysEvent) (st : SupState)
    (h : (st.workers.map Prod.fst).Nodup) :
    (((apply_event e st).workers).map Prod.fst).Nodup := by
  cases e with
  | tick r avail =>
    cases r with
    | error msg => exact h
    | ok cfg => exact nodup_keys_supervisor_tick _ _ _ h
  | openFault id =>
    simpa [apply_event, keys_update_worker] using h
  | captureFault id b =>
    simpa [apply_event, keys_update_worker] using h

theorem target_freq_round_robin (active : List Nat) (h : active ≠ []) :
    (List.range (2 * active.length)).map (fun i => target_freq active i) =
      active ++ active := by
  have hn : 0 < active.length := List.length_pos.mpr h
  apply List.ext_getElem
  · simp [two_mul]
  · intro i h1 h2
    rw [List.length_map, List.length_range] at h1
    simp only [List.getElem_map, List.getElem_range]
    unfold target_freq
    by_cases hi : i < active.length
    · rw [Nat.mod_eq_of_lt hi, List.getD_eq_getElem _ _ hi,
        List.getElem_append_left hi]
    · push_neg at hi
      have hlt : i - active.length < active.length := by omega
      have hmod : i % active.length = i - active.length := by
        rw [Nat.mod_eq_sub_mod hi, Nat.mod_eq_of_lt hlt]
      rw [hmod, List.getD_eq_getElem _ _ hlt, List.getElem_append_right hi]

theorem close_sdr_sdrSome (m : SDRState) : (close_sdr m).sdrSome = false := by
  unfold close_sdr
  split <;> rfl

theorem close_sdr_isOpen (m : SDRState) : (close_sdr m).isOpen = false := by
  unfold close_sdr
  split <;> rfl

theorem close_sdr_idem (m : SDRState) :
    close_sdr (close_sdr m) = close_sdr m := by
  obtain ⟨ss, so, c, o⟩ := m
  cases ss <;> cases so <;> simp [close_sdr]

/-! ## Claims -/

/-- C3: in every scanning iteration over a non-empty active list the worker
tunes to `active_frequencies[cycleIndex mod len]` and then increments the
monotonic cycle index; with only the six HFGCS frequencies active and index
7 the target is 6739000; and over indices `0..2n-1` a fixed active list of
length `n` is visited exactly twice, in order. -/
theorem scan_rotation_round_robin (active : List Nat) (idx : Nat)
    (h : active ≠ []) :
    scan_iteration active idx =
      (active.getD (idx % active.length) 0, idx + 1) ∧
    target_freq (active_frequencies true false false) 7 = 6739000 ∧
    (List.range (2 * active.length)).map (fun i => target_freq active i) =
      active ++ active :=
  ⟨rfl, by decide, target_freq_round_robin active h⟩

theorem scan_rotation_round_robin_witness :
    scan_frequencies_hfgcs ≠ [] ∧
    (scan_iteration scan_frequencies_hfgcs 7 =
        (scan_frequencies_hfgcs.getD (7 % scan_frequencies_hfgcs.length) 0,
          8) ∧
      target_freq (active_frequencies true false false) 7 = 6739000 ∧
      (List.range (2 * scan_frequencies_hfgcs.length)).map
          (fun i => target_freq scan_frequencies_hfgcs i) =
        scan_frequencies_hfgcs ++ scan_frequencies_hfgcs) :=
  ⟨by decide, scan_rotation_round_robin scan_frequencies_hfgcs 7 (by decide)⟩

/-- C4: for every device id in the exported status snapshot, the reported
state is derived, at snapshot-assembly time, directly from the liveness bit
of the thread stored in `sdr_threads`: it is `"Active"` exactly when that
thread is alive, with no other input. -/
theorem status_reflects_thread_liveness (st : WorkerMap) (id : String) :
    List.lookup id (sdr_devices_status st) =
      (List.lookup id st).map
        (fun w => if w.alive then "Active" else "Inactive") ∧
    (List.lookup id (sdr_devices_status st) = some "Active" ↔
      ∃ w, List.lookup id st = some w ∧ w.alive = true) := by
  have h1 : List.lookup id (sdr_devices_status st) =
      (List.lookup id st).map
        (fun w => if w.alive then "Active" else "Inactive") :=
    lookup_map_snd (fun w => if w.alive then "Active" else "Inactive") st id
  refine ⟨h1, ?_⟩
  rw [h1]
  cases hl : List.lookup id st with
  | none => simp
  | some w => cases hw : w.alive <;> simp [hw]

/-- C5: `get_recent_messages` answers the empty list for any table name
outside its whitelist without touching the database, and the main loop
invokes the export with the misspelled name `hfcgs_messages`, so the
recent-messages JSON payload is always the empty list, for every database
content and every limit. -/
theorem misnamed_export_table_always_empty (db : String → List DbRow)
    (limit : Nat) :
    main_loop_messages_table ∉ valid_message_tables ∧
    get_recent_messages db main_loop_messages_table limit = [] ∧
    main_app_loop_messages_export db limit = [] :=
  ⟨by decide, rfl, rfl⟩

/-- C6: a malformed settings file never propagates an exception out of the
main loop body: the `configparser.Error` arm catches it and that tick
leaves the previous flags, the previous device selection and the worker map
all untouched. -/
theorem config_fault_retains_previous_state (msg : String)
    (available : List String) (st : SupState) :
    main_app_loop_tick (Except.error msg) available st = st ∧
    (main_app_loop_tick (Except.error msg) available st).flags = st.flags ∧
    (main_app_loop_tick (Except.error msg) available st).workers =
      st.workers :=
  ⟨rfl, rfl, rfl⟩

/-- C1 (evidence for the divergence): on an open fault the worker does
self-terminate — `worker_startup false` clears the running flag and ends
the thread — but on the next supervisor tick with the device ("S1") still
detected and selected ("all"), `supervisor_tick` leaves the dead entry in
`sdr_threads` untouched and starts no fresh worker (a fresh worker would
have `alive = true`): the start loop only fires for serials with no entry
in the map, and the dead entry is only deleted when the device stops being
selected or detected. -/
theorem open_fault_worker_never_restarted :
    worker_startup false freshWorker =
      { alive := false, flagSet := false, manager := SDRState.init } ∧
    supervisor_tick ["S1"] "all"
        [("S1", { alive := false, flagSet := false,
                  manager := SDRState.init })] =
      [("S1", { alive := false, flagSet := false,
                manager := SDRState.init })] ∧
    freshWorker.alive = true ∧
    ({ alive := false, flagSet := false,
       manager := SDRState.init } : Worker).alive = false := by
  refine ⟨by decide, by decide, rfl, rfl⟩

/-- C2: every state reachable from process start by any trace of supervisor
ticks (with arbitrary config-read outcomes and detected-device lists),
worker open faults and worker capture faults has at most one `sdr_threads`
entry — hence at most one worker — per device id; moreover a capture fault
on any device changes no key of the worker map at all, so it never spawns a
second worker. -/
theorem at_most_one_worker_per_device (evs : List SysEvent) (id : String)
    (b : Bool) (st : SupState) :
    ((run_events evs).workers.map Prod.fst).Nodup ∧
    (apply_event (SysEvent.captureFault id b) st).workers.map Prod.fst =
      st.workers.map Prod.fst := by
  constructor
  · unfold run_events
    have main : ∀ (l : List SysEvent) (s : SupState),
        (s.workers.map Prod.fst).Nodup →
        (((l.foldl (fun st e => apply_event e st) s)).workers.map
          Prod.fst).Nodup := by
      intro l
      induction l with
      | nil => exact fun s hs => hs
      | cons e rest ih => exact fun s hs => ih _ (nodup_keys_apply_event e s hs)
    exact main evs init_sup_state (by simp [init_sup_state])
  · exact keys_update_worker id (worker_capture_fault b) st.workers

/-- C7: a capture fault on an open device returns an empty sample block
(never a raised exception), invokes the hardware close exactly once, and
performs a full re-open — the resulting manager state is exactly
`open_sdr` applied after `close_sdr`, so it is open again precisely when
the re-open succeeded. -/
theorem capture_fault_closes_and_reopens (s : SDRState) (reopen : Bool)
    (h1 : s.sdrSome = true) (h2 : s.isOpen = true) :
    (capture_samples CaptureOutcome.fault reopen s).2 = [] ∧
    (capture_samples CaptureOutcome.fault reopen s).1 =
      open_sdr reopen (close_sdr s) ∧
    (capture_samples CaptureOutcome.fault reopen s).1.closeCount =
      s.closeCount + 1 ∧
    (capture_samples CaptureOutcome.fault reopen s).1.isOpen = reopen := by
  have hcap : capture_samples CaptureOutcome.fault reopen s =
      (open_sdr reopen (close_sdr s), []) := by
    unfold capture_samples
    rw [if_pos ⟨h1, h2⟩]
  obtain ⟨ss, so, c, o⟩ := s
  simp only at h1 h2
  subst h1; subst h2
  refine ⟨by rw [hcap], by rw [hcap], ?_, ?_⟩ <;>
    rw [hcap] <;> cases reopen <;> simp [open_sdr, close_sdr]

theorem capture_fault_closes_and_reopens_witness :
    ((⟨true, true, 0, 1⟩ : SDRState).sdrSome = true ∧
      (⟨true, true, 0, 1⟩ : SDRState).isOpen = true) ∧
    ((capture_samples CaptureOutcome.fault true
        (⟨true, true, 0, 1⟩ : SDRState)).2 = [] ∧
      (capture_samples CaptureOutcome.fault true
          (⟨true, true, 0, 1⟩ : SDRState)).1 =
        open_sdr true (close_sdr (⟨true, true, 0, 1⟩ : SDRState)) ∧
      (capture_samples CaptureOutcome.fault true
          (⟨true, true, 0, 1⟩ : SDRState)).1.closeCount =
        (⟨true, true, 0, 1⟩ : SDRState).closeCount + 1 ∧
      (capture_samples CaptureOutcome.fault true
          (⟨true, true, 0, 1⟩ : SDRState)).1.isOpen = true) :=
  ⟨⟨rfl, rfl⟩, capture_fault_closes_and_reopens ⟨true, true, 0, 1⟩ true rfl rfl⟩

/-- C8: the hardware close runs exactly once per successful open: opening
from a closed state and closing bumps the close count by exactly one; a
second `close_sdr` — the forced-timeout path where the supervisor closes
after the worker cleanup already did — is a strict no-op; `close_sdr`
without a prior successful open leaves the state unchanged and never
invokes the device close; and the supervisor stop sequence applied to a
worker whose own cleanup already closed the handle does not close it
again. -/
theorem sdr_release_exactly_once (s t : SDRState) (w : Worker)
    (joinOk : Bool) (h1 : s.sdrSome = false) (h2 : s.isOpen = false) :
    (close_sdr (open_sdr true s)).closeCount = s.closeCount + 1 ∧
    close_sdr (close_sdr (open_sdr true s)) = close_sdr (open_sdr true s) ∧
    close_sdr s = s ∧
    (close_sdr t).sdrSome = false ∧
    (close_sdr t).isOpen = false ∧
    close_sdr (close_sdr t) = close_sdr t ∧
    (stop_worker joinOk
        { w with manager := close_sdr w.manager }).manager.closeCount =
      (close_sdr w.manager).closeCount := by
  refine ⟨?_, close_sdr_idem (open_sdr true s), ?_,
    close_sdr_sdrSome t, close_sdr_isOpen t, close_sdr_idem t, ?_⟩
  · obtain ⟨ss, so, c, o⟩ := s
    simp only at h1 h2
    subst h1; subst h2
    simp [open_sdr, close_sdr]
  · obtain ⟨ss, so, c, o⟩ := s
    simp only at h1 h2
    subst h1; subst h2
    simp [close_sdr]
  · show (close_sdr (close_sdr w.manager)).closeCount =
      (close_sdr w.manager).closeCount
    rw [close_sdr_idem]

theorem sdr_release_exactly_once_witness :
    (SDRState.init.sdrSome = false ∧ SDRState.init.isOpen = false) ∧
    ((close_sdr (open_sdr true SDRState.init)).closeCount =
        SDRState.init.closeCount + 1 ∧
      close_sdr (close_sdr (open_sdr true SDRState.init)) =
        close_sdr (open_sdr true SDRState.init) ∧
      close_sdr SDRState.init = SDRState.init ∧
      (close_sdr (⟨true, true, 5, 7⟩ : SDRState)).sdrSome = false ∧
      (close_sdr (⟨true, true, 5, 7⟩ : SDRState)).isOpen = false ∧
      close_sdr (close_sdr (⟨true, true, 5, 7⟩ : SDRState)) =
        close_sdr (⟨true, true, 5, 7⟩ : SDRState) ∧
      (stop_worker false
          { freshWorker with
              manager := close_sdr freshWorker.manager }).manager.closeCount =
        (close_sdr freshWorker.manager).closeCount) :=
  ⟨⟨rfl, rfl⟩,
    sdr_release_exactly_once SDRState.init ⟨true, true, 5, 7⟩ freshWorker
      false rfl rfl⟩

/-- C9: under an explicit device list the resolved selection is exactly the
configured entries (split on commas and stripped) that are also detected;
under the `"all"` policy it is exactly the detected list; and for a device
not currently detected no entry for it exists after a supervisor tick — no
worker is ever started for a configured-but-undetected device. -/
theorem explicit_selection_intersects_detected (sel : String)
    (available : List String) (st : WorkerMap) (x d : String)
    (h1 : sel ≠ "all") (h2 : sel ≠ "") (h3 : d ∉ available) :
    (x ∈ resolve_selection sel available ↔
      x ∈ (py_split ',' sel).map py_strip ∧ x ∈ available) ∧
    resolve_selection "all" available = available ∧
    d ∉ (supervisor_tick available sel st).map Prod.fst := by
  refine ⟨?_, rfl, ?_⟩
  · unfold resolve_selection
    rw [if_neg h1, if_pos h2]
    simp [List.mem_filter]
  · intro hd
    simp only [supervisor_tick] at hd
    rcases mem_keys_start_new_workers _ _ _ hd with hk | hk
    · exact h3 (mem_keys_stop_removed _ _ _ _ hk)
    · exact h3 (resolve_selection_subset _ _ _ hk)

theorem explicit_selection_intersects_detected_witness :
    ("S1, S2" ≠ "all" ∧ "S1, S2" ≠ "" ∧ "S2" ∉ ["S1", "S3"]) ∧
    (("S1" ∈ resolve_selection "S1, S2" ["S1", "S3"] ↔
        "S1" ∈ (py_split ',' "S1, S2").map py_strip ∧
          "S1" ∈ ["S1", "S3"]) ∧
      resolve_selection "all" ["S1", "S3"] = ["S1", "S3"] ∧
      "S2" ∉ (supervisor_tick ["S1", "S3"] "S1, S2"
          [("S2", freshWorker)]).map Prod.fst) :=
  ⟨⟨by decide, by decide, by decide⟩,
    explicit_selection_intersects_detected "S1, S2" ["S1", "S3"]
      [("S2", freshWorker)] "S1" "S2" (by decide) (by decide) (by decide)⟩

/-- C10: an empty `selected_devices` string falls into the warning branch
that selects every detected device — the same resolution as the literal
`"all"` policy, not the empty selection. -/
theorem empty_selection_defaults_to_all (available : List String) :
    resolve_selection "" available = available ∧
    resolve_selection "" available = resolve_selection "all" available :=
  ⟨rfl, rfl⟩

end HFGCSpy
